import Mathlib

/-! # lfs-server-go: the AWS content store

A shallow embedding of `aws_content_store.go` (`AwsContentStore.Put`, `Get`,
`Exists`, `setAcl`) together with the library functions it calls
(`crypto/sha256`, `encoding/hex`, `ioutil.ReadAll`, `io.Copy`,
`strings.Contains`) and the S3 client it drives.

Conventions.
* Go `string` is `String`, `[]byte` is `List UInt8`, `int64` is `Int`.
* The S3 service is remote state: every client call takes the state of the
  service and returns its answer together with the next state.
* `logger.Log` writes to the process log only; it changes neither a return
  value nor the backend, and is left out.
-/

set_option autoImplicit false

namespace LfsServer

/-! ## crypto/sha256 and encoding/hex

SHA-256 as in FIPS 180-4, on 32-bit words kept as `Nat` reduced `% 2 ^ 32`. -/

/-- Reduce to a 32-bit word. -/
def w32 (x : Nat) : Nat := x % 2 ^ 32

/-- Rotate the 32-bit word `x` right by `n` bits (`bits.RotateLeft32(x, -n)`). -/
def rotr (x n : Nat) : Nat := w32 ((x >>> n) ||| (x <<< (32 - n)))

/-- Round constants `_K` of sha256block.go. -/
def sha256K : List Nat :=
  [0x428a2f98, 0x71374491, 0xb5c0fbcf, 0xe9b5dba5, 0x3956c25b, 0x59f111f1, 0x923f82a4, 0xab1c5ed5,
   0xd807aa98, 0x12835b01, 0x243185be, 0x550c7dc3, 0x72be5d74, 0x80deb1fe, 0x9bdc06a7, 0xc19bf174,
   0xe49b69c1, 0xefbe4786, 0x0fc19dc6, 0x240ca1cc, 0x2de92c6f, 0x4a7484aa, 0x5cb0a9dc, 0x76f988da,
   0x983e5152, 0xa831c66d, 0xb00327c8, 0xbf597fc7, 0xc6e00bf3, 0xd5a79147, 0x06ca6351, 0x14292967,
   0x27b70a85, 0x2e1b2138, 0x4d2c6dfc, 0x53380d13, 0x650a7354, 0x766a0abb, 0x81c2c92e, 0x92722c85,
   0xa2bfe8a1, 0xa81a664b, 0xc24b8b70, 0xc76c51a3, 0xd192e819, 0xd6990624, 0xf40e3585, 0x106aa070,
   0x19a4c116, 0x1e376c08, 0x2748774c, 0x34b0bcb5, 0x391c0cb3, 0x4ed8aa4a, 0x5b9cca4f, 0x682e6ff3,
   0x748f82ee, 0x78a5636f, 0x84c87814, 0x8cc70208, 0x90befffa, 0xa4506ceb, 0xbef9a3f7, 0xc67178f2]

/-- The eight working variables `a .. h` / chaining values `h0 .. h7`. -/
structure Sha256State where
  a : Nat
  b : Nat
  c : Nat
  d : Nat
  e : Nat
  f : Nat
  g : Nat
  h : Nat
  deriving DecidableEq, Repr

/-- Initial chaining values `init0 .. init7`. -/
def sha256Init : Sha256State :=
  ⟨0x6a09e667, 0xbb67ae85, 0x3c6ef372, 0xa54ff53a, 0x510e527f, 0x9b05688c, 0x1f83d9ab, 0x5be0cd19⟩

/-- Padding of a message of `len` bytes: `0x80`, zeros up to 56 mod 64, then
the bit length as a 64-bit big-endian integer. -/
def sha256Pad (len : Nat) : List UInt8 :=
  let zeros := (119 - len % 64) % 64
  let bits := (len * 8) % 2 ^ 64
  (0x80 : UInt8) :: List.replicate zeros (0 : UInt8) ++
    (List.range 8).map (fun i => UInt8.ofNat ((bits >>> (8 * (7 - i))) % 256))

/-- Big-endian 32-bit words of a byte string (four bytes each; a trailing
group of fewer than four bytes does not occur on padded input). -/
def beWords : List UInt8 → List Nat
  | b0 :: b1 :: b2 :: b3 :: rest =>
      (b0.toNat <<< 24 ||| b1.toNat <<< 16 ||| b2.toNat <<< 8 ||| b3.toNat) :: beWords rest
  | _ => []

/-- Extend the message schedule by `n` words. `rev` holds the schedule so far,
newest word first, so `w[i-2]`, `w[i-7]`, `w[i-15]`, `w[i-16]` sit at
positions 1, 6, 14, 15. -/
def sha256Schedule : Nat → List Nat → List Nat
  | 0, rev => rev
  | n + 1, rev =>
      let v1 := rev.getD 1 0
      let t1 := rotr v1 17 ^^^ rotr v1 19 ^^^ (v1 >>> 10)
      let v2 := rev.getD 14 0
      let t2 := rotr v2 7 ^^^ rotr v2 18 ^^^ (v2 >>> 3)
      sha256Schedule n (w32 (t1 + rev.getD 6 0 + t2 + rev.getD 15 0) :: rev)

/-- One round of the compression function with round constant `k` and
schedule word `w`. -/
def sha256Round (s : Sha256State) (k w : Nat) : Sha256State :=
  let t1 := s.h + (rotr s.e 6 ^^^ rotr s.e 11 ^^^ rotr s.e 25) +
    ((s.e &&& s.f) ^^^ ((s.e ^^^ 0xffffffff) &&& s.g)) + k + w
  let t2 := (rotr s.a 2 ^^^ rotr s.a 13 ^^^ rotr s.a 22) +
    ((s.a &&& s.b) ^^^ (s.a &&& s.c) ^^^ (s.b &&& s.c))
  ⟨w32 (t1 + t2), s.a, s.b, s.c, w32 (s.d + t1), s.e, s.f, s.g⟩

/-- Run the rounds over paired round constants and schedule words. -/
def sha256Rounds : Sha256State → List Nat → List Nat → Sha256State
  | s, k :: ks, w :: ws => sha256Rounds (sha256Round s k w) ks ws
  | s, _, _ => s

/-- Compress one 64-byte block into the chaining state (`block`). -/
def sha256Block (hs : Sha256State) (chunk : List UInt8) : Sha256State :=
  let w := (sha256Schedule 48 (beWords chunk).reverse).reverse
  let s := sha256Rounds hs sha256K w
  ⟨w32 (hs.a + s.a), w32 (hs.b + s.b), w32 (hs.c + s.c), w32 (hs.d + s.d),
   w32 (hs.e + s.e), w32 (hs.f + s.f), w32 (hs.g + s.g), w32 (hs.h + s.h)⟩

/-- Compress `n` consecutive 64-byte blocks of `msg`. -/
def sha256Blocks : Nat → Sha256State → List UInt8 → Sha256State
  | 0, hs, _ => hs
  | n + 1, hs, msg => sha256Blocks n (sha256Block hs (msg.take 64)) (msg.drop 64)

/-- Big-endian bytes of a 32-bit word. -/
def beBytes (x : Nat) : List UInt8 :=
  [UInt8.ofNat ((x >>> 24) % 256), UInt8.ofNat ((x >>> 16) % 256),
   UInt8.ofNat ((x >>> 8) % 256), UInt8.ofNat (x % 256)]

/-- The digest `sha256.New()` yields from `Sum(nil)` after `data` was written
to it: 32 bytes. -/
def sha256Sum (data : List UInt8) : List UInt8 :=
  let msg := data ++ sha256Pad data.length
  let s := sha256Blocks (msg.length / 64) sha256Init msg
  beBytes s.a ++ beBytes s.b ++ beBytes s.c ++ beBytes s.d ++
    beBytes s.e ++ beBytes s.f ++ beBytes s.g ++ beBytes s.h

/-- One digit of `hextable = "0123456789abcdef"`. -/
def hexDigit (n : Nat) : Char :=
  if n < 10 then Char.ofNat (48 + n) else Char.ofNat (87 + n)

/-- Function `hex.EncodeToString`: two lowercase hex digits per byte. -/
def hexEncodeToString (src : List UInt8) : String :=
  String.mk (src.flatMap (fun b => [hexDigit (b.toNat / 16), hexDigit (b.toNat % 16)]))

/-- Conversion `[]byte(s)` of a string: its UTF-8 bytes. -/
def bytesOfString (s : String) : List UInt8 := s.toUTF8.toList


/-- Function `strings.Contains` on the characters of the two strings. -/
def containsChars : List Char → List Char → Bool
  | [], substr => substr.isEmpty
  | c :: cs, substr => substr.isPrefixOf (c :: cs) || containsChars cs substr

/-- Function `strings.Contains`. -/
def stringsContains (s substr : String) : Bool := containsChars s.toList substr.toList

/-! ## Errors, readers and the S3 client -/

/-- An error value made outside this package (AWS SDK, `io`); `Error()`
yields `message`. -/
structure ExtError where
  message : String
  deriving DecidableEq, Repr

/-- Modelled from the spec: the sentinel errors `errSizeMismatch` and
`errHashMismatch` are declared outside aws_content_store.go. A Go `error` as
this package sees it is one of these two package-level values, which no other
package can produce, or an error received from outside. A nil error is
`none : Option GoError`. -/
inductive GoError where
  | errSizeMismatch
  | errHashMismatch
  | ext (e : ExtError)
  deriving DecidableEq, Repr

/-- An `io.Reader` as `ioutil.ReadAll` sees it: the bytes it delivers before
it stops, and the error it stops with (`none` for a clean EOF). -/
structure Reader where
  data : List UInt8
  err : Option ExtError
  deriving DecidableEq, Repr

/-- Function `bytes.NewReader`: delivers exactly `data`, never fails. -/
def bytesNewReader (data : List UInt8) : Reader := ⟨data, none⟩

/-- Function `ioutil.ReadAll`: the data read and the error met, if any. -/
def ioutilReadAll (r : Reader) : List UInt8 × Option ExtError := (r.data, r.err)

/-- The call `io.Copy(io.MultiWriter(hash), bytes.NewReader(buf))`: a hash
never rejects a write and the reader never fails, so all of `buf` is written;
the result is the byte count as `int64` and a nil error. -/
def ioCopy (buf : List UInt8) : Int × Option ExtError := ((buf.length : Int), none)

structure GetObjectInput where
  Bucket : String
  Key : String
  deriving DecidableEq, Repr

structure GetObjectOutput where
  Body : Reader
  deriving DecidableEq, Repr

structure PutObjectInput where
  Bucket : String
  ACL : String
  Key : String
  ContentLength : Int
  ContentType : String
  Body : List UInt8
  deriving DecidableEq, Repr

/-- The answer to a successful `PutObject`; the store only logs it. -/
structure PutObjectOutput where
  ETag : String
  deriving DecidableEq, Repr

structure HeadObjectInput where
  Bucket : String
  Key : String
  deriving DecidableEq, Repr

/-- The S3 client `*s3.S3` with the three operations the store calls. `σ` is
the state of the remote service (and of the connection to it); each request
returns the SDK's answer and the state afterwards. `WaitUntilObjectExists`
returns the waiter's error, `none` once the object was seen. -/
structure S3 (σ : Type) where
  GetObject : GetObjectInput → σ → Except ExtError GetObjectOutput × σ
  PutObject : PutObjectInput → σ → Except ExtError PutObjectOutput × σ
  WaitUntilObjectExists : HeadObjectInput → σ → Option ExtError × σ

/-! ## Declarations of the repository used by the store -/

/-- Modelled from the spec: the type `MetaObject` is declared outside
aws_content_store.go; the store reads `Oid` (lowercase hex content hash) and
`Size` (declared length in bytes, an `int64`). -/
structure MetaObject where
  Oid : String
  Size : Int
  deriving DecidableEq, Repr

/-- Modelled from the spec: the `Aws` section of the global `Config`, declared
outside aws_content_store.go, with the fields the store reads. -/
structure AwsConfig where
  AccessKeyId : String
  SecretAccessKey : String
  Region : String
  BucketName : String
  BucketAcl : String
  EndpointUrl : String
  deriving DecidableEq, Repr

/-- Modelled from the spec: the global `Config`. -/
structure Configuration where
  Aws : AwsConfig
  deriving DecidableEq, Repr

/-! ## aws_content_store.go -/

def ContentType : String := "binary/octet-stream"

/-- Constant `s3.BucketCannedACLPrivate`. -/
def BucketCannedACLPrivate : String := "private"
/-- Constant `s3.BucketCannedACLPublicRead`. -/
def BucketCannedACLPublicRead : String := "public-read"
/-- Constant `s3.BucketCannedACLPublicReadWrite`. -/
def BucketCannedACLPublicReadWrite : String := "public-read-write"
/-- Constant `s3.BucketCannedACLAuthenticatedRead`. -/
def BucketCannedACLAuthenticatedRead : String := "authenticated-read"
/-- Constant `s3.ObjectCannedACLBucketOwnerFullControl`. -/
def ObjectCannedACLBucketOwnerFullControl : String := "bucket-owner-full-control"

structure Bucket where
  Name : String
  deriving DecidableEq, Repr

/-- The struct `AwsContentStore` (the `session` handle, which no method reads,
is left out). -/
structure AwsContentStore (σ : Type) where
  client : S3 σ
  bucket : Bucket
  authId : String
  authKey : String
  acl : String

variable {σ : Type}

/-- Method `setAcl`: the `switch` over `Config.Aws.BucketAcl`, first matching
case wins, `default` last. -/
def AwsContentStore.setAcl (Config : Configuration) (s : AwsContentStore σ) :
    AwsContentStore σ :=
  if Config.Aws.BucketAcl = "private" then
    { s with acl := BucketCannedACLPrivate }
  else if Config.Aws.BucketAcl = "public-read" then
    { s with acl := BucketCannedACLPublicRead }
  else if Config.Aws.BucketAcl = "public-read-write" then
    { s with acl := BucketCannedACLPublicReadWrite }
  else if Config.Aws.BucketAcl = "authenticated-read" then
    { s with acl := BucketCannedACLAuthenticatedRead }
  else if Config.Aws.BucketAcl = "bucket-owner-full-control" then
    { s with acl := ObjectCannedACLBucketOwnerFullControl }
  else
    { s with acl := BucketCannedACLPrivate }

/-- Function `NewAwsContentStore`; `client` is the handle `s3.New(session)`
built from the configuration (the two `os.Setenv` calls and the session set-up
act on the process and the SDK only). The fields not set by the composite
literal are zero values. -/
def NewAwsContentStore (Config : Configuration) (client : S3 σ) :
    AwsContentStore σ × Option GoError :=
  let self : AwsContentStore σ :=
    { bucket := ⟨Config.Aws.BucketName⟩, client := client, authId := "", authKey := "", acl := "" }
  (self.setAcl Config, none)

/-- Method `Get`. `transformKey` is declared outside aws_content_store.go and
is a parameter. The result is the pair `(io.Reader, error)`; the reader is
`bytes.NewReader(data)`. -/
def AwsContentStore.Get (transformKey : String → String) (s : AwsContentStore σ)
    (meta : MetaObject) (st : σ) : (Option Reader × Option GoError) × σ :=
  let path := transformKey meta.Oid
  let objReq : GetObjectInput := { Bucket := s.bucket.Name, Key := path }
  match s.client.GetObject objReq st with
  | (.error err, st1) => ((none, some (.ext err)), st1)
  | (.ok resp, st1) =>
    -- the error of ReadAll is logged and dropped
    let (data, _) := ioutilReadAll resp.Body
    ((some (bytesNewReader data), none), st1)

/-- Method `Put`. -/
def AwsContentStore.Put (transformKey : String → String) (s : AwsContentStore σ)
    (meta : MetaObject) (r : Reader) (st : σ) : Option GoError × σ :=
  let path := transformKey meta.Oid
  let (buf, _) := ioutilReadAll r
  let (written, err) := ioCopy buf
  match err with
  | some e => (some (.ext e), st)
  | none =>
    if written ≠ meta.Size then (some .errSizeMismatch, st)
    else
      let shaStr := hexEncodeToString (sha256Sum buf)
      if shaStr ≠ meta.Oid then (some .errHashMismatch, st)
      else
        let input : PutObjectInput :=
          { Bucket := s.bucket.Name, ACL := s.acl, Key := path, ContentLength := meta.Size,
            ContentType := ContentType, Body := buf }
        match s.client.PutObject input st with
        | (retStat, st1) =>
          -- the result of the waiter is not looked at
          match s.client.WaitUntilObjectExists { Bucket := s.bucket.Name, Key := path } st1 with
          | (_, st2) =>
            match retStat with
            | .error e => (some (.ext e), st2)
            | .ok _ => (none, st2)

/-- Method `Exists`. -/
def AwsContentStore.Exists (transformKey : String → String) (s : AwsContentStore σ)
    (meta : MetaObject) (st : σ) : Bool × σ :=
  let path := transformKey meta.Oid
  let input : GetObjectInput := { Bucket := s.bucket.Name, Key := path }
  match s.client.GetObject input st with
  | (.error err, st1) =>
    if stringsContains err.message "404" then (false, st1)
    else (false, st1)
  | (.ok _, st1) => (true, st1)

/-! ## Backends

`mapS3` is the service as a map from bucket and key to bytes. The wrappers
below put a failure on one operation of a client and leave the others alone;
`recording` keeps the list of requests a client was sent. -/

/-- The objects held by the service: bucket and key to bytes. -/
abbrev Objects := List ((String × String) × List UInt8)

/-- The bytes stored under `key` in `bucket`, if any. -/
def objectsFind (m : Objects) (bucket key : String) : Option (List UInt8) :=
  List.lookup (bucket, key) m

/-- Store `body` under `key` in `bucket`, replacing what was there. -/
def objectsStore (m : Objects) (bucket key : String) (body : List UInt8) : Objects :=
  ((bucket, key), body) :: m.filter (fun e => e.1 ≠ (bucket, key))

/-- The SDK's error for a key that is not there (HTTP status 404). -/
def noSuchKey : ExtError :=
  ⟨"NoSuchKey: The specified key does not exist.\n\tstatus code: 404, request id: "⟩

/-- The waiter's error when the object was not seen within its attempts. -/
def resourceNotReady : ExtError := ⟨"ResourceNotReady: exceeded wait attempts"⟩

/-- The service as a key-to-bytes map: `PutObject` stores the body at the
given key, `GetObject` returns what is stored or not-found, the waiter
succeeds when the key is present. -/
def mapS3 : S3 Objects where
  GetObject := fun i m =>
    match objectsFind m i.Bucket i.Key with
    | some body => (.ok ⟨bytesNewReader body⟩, m)
    | none => (.error noSuchKey, m)
  PutObject := fun i m => (.ok ⟨""⟩, objectsStore m i.Bucket i.Key i.Body)
  WaitUntilObjectExists := fun i m =>
    match objectsFind m i.Bucket i.Key with
    | some _ => (none, m)
    | none => (some resourceNotReady, m)

/-- Client `c` with the waiter giving up with error `e`. -/
def withWaitError (e : ExtError) (c : S3 σ) : S3 σ :=
  { c with WaitUntilObjectExists := fun _ st => (some e, st) }

/-- Client `c` with every response body breaking with error `e` after `n`
bytes were delivered. -/
def withBodyError (n : Nat) (e : ExtError) (c : S3 σ) : S3 σ :=
  { c with GetObject := fun i st =>
      match c.GetObject i st with
      | (.ok out, st1) => (.ok ⟨⟨out.Body.data.take n, some e⟩⟩, st1)
      | (.error err, st1) => (.error err, st1) }

/-- A request sent to the service. -/
inductive Call where
  | get (i : GetObjectInput)
  | put (i : PutObjectInput)
  | wait (i : HeadObjectInput)
  deriving DecidableEq, Repr

/-- Client `c` with the requests sent so far kept next to its state. -/
def recording (c : S3 σ) : S3 (σ × List Call) where
  GetObject := fun i st => ((c.GetObject i st.1).1, ((c.GetObject i st.1).2, st.2 ++ [.get i]))
  PutObject := fun i st => ((c.PutObject i st.1).1, ((c.PutObject i st.1).2, st.2 ++ [.put i]))
  WaitUntilObjectExists := fun i st =>
    ((c.WaitUntilObjectExists i st.1).1, ((c.WaitUntilObjectExists i st.1).2, st.2 ++ [.wait i]))

/-- Modelled from the spec: `transformKey` is declared outside
aws_content_store.go; the spec fixes that it is a pure, deterministic,
injective map from the hash to a storage path owned by a sharding scheme. The
general theorems take the key derivation as a parameter; this instance
(`ab/cd/rest` for keys of five characters or more) serves the concrete runs. -/
def transformKey (key : String) : String :=
  if key.length < 5 then key
  else String.mk (key.toList.take 2 ++ '/' :: (key.toList.drop 2).take 2 ++ '/' :: key.toList.drop 4)

/-- The request `Put` sends once both checks passed. -/
def putRequest (tk : String → String) (s : AwsContentStore σ) (meta : MetaObject)
    (buf : List UInt8) : PutObjectInput :=
  { Bucket := s.bucket.Name, ACL := s.acl, Key := tk meta.Oid, ContentLength := meta.Size,
    ContentType := ContentType, Body := buf }

/-- The request `Get` and `Exists` send. -/
def getRequest (tk : String → String) (s : AwsContentStore σ) (meta : MetaObject) :
    GetObjectInput :=
  { Bucket := s.bucket.Name, Key := tk meta.Oid }

/-! ## Test fixtures (aws_content_store_test.go) -/

/-- The test's `oid`, the SHA-256 of "test content". -/
def oid : String := "6ae8a75555209fd6c44157c0aed8016e763ff435a19cf186f76863140143ff72"

/-- A configuration for the tests: bucket and policy set, the rest empty. -/
def testConfig : Configuration :=
  ⟨{ AccessKeyId := "", SecretAccessKey := "", Region := "us-east-1", BucketName := "lfs-server-go",
     BucketAcl := "private", EndpointUrl := "" }⟩

/-- The store `setupAwsTest` builds, over the client `c`. -/
def testStore (c : S3 σ) : AwsContentStore σ := (NewAwsContentStore testConfig c).1

/-- The content source `bytes.NewBuffer([]byte(s))`. -/
def bufferOf (s : String) : Reader := bytesNewReader (bytesOfString s)

/-! ## Shared lemmas -/

/-- The digest of the empty message (FIPS 180-4 test vector). -/
theorem sha256Sum_empty :
    hexEncodeToString (sha256Sum []) =
      "e3b0c44298fc1c149afbf4c8996fb92427ae41e4649b934ca495991b7852b855" := by
  decide!

/-- The digest of "abc" (FIPS 180-4 test vector). -/
theorem sha256Sum_abc :
    hexEncodeToString (sha256Sum (bytesOfString "abc")) =
      "ba7816bf8f01cfea414140de5dae2223b00361a396177a9cb410ff61f20015ad" := by
  decide!

/-- The digest of the two-block message of FIPS 180-4 (56 bytes). -/
theorem sha256Sum_two_blocks :
    hexEncodeToString (sha256Sum
      (bytesOfString "abcdbcdecdefdefgefghfghighijhijkijkljklmklmnlmnomnopnopq")) =
      "248d6a61d20638b8e5c026930c3e6039a33ce45964ff2167f6ecedd419db06c1" := by
  decide!

/-- The digest of the test content is the test's `oid`. -/
theorem sha256Sum_test_content :
    hexEncodeToString (sha256Sum (bytesOfString "test content")) = oid := by
  decide!

/-- The three ways `Put` ends, by the outcome of the two checks. -/
theorem Put_cases (tk : String → String) (s : AwsContentStore σ) (meta : MetaObject)
    (r : Reader) (st : σ) :
    s.Put tk meta r st =
      if (r.data.length : Int) ≠ meta.Size then (some .errSizeMismatch, st)
      else if hexEncodeToString (sha256Sum r.data) ≠ meta.Oid then (some .errHashMismatch, st)
      else
        (match (s.client.PutObject (putRequest tk s meta r.data) st).1 with
          | .error e => some (.ext e)
          | .ok _ => none,
         (s.client.WaitUntilObjectExists ⟨s.bucket.Name, tk meta.Oid⟩
            (s.client.PutObject (putRequest tk s meta r.data) st).2).2) := by
  unfold AwsContentStore.Put
  simp only [ioutilReadAll, ioCopy, putRequest]
  split_ifs with h1 h2
  · rfl
  · rfl
  · cases hp : (s.client.PutObject _ st).1 <;> simp_all

/-- Looking up a key right after storing under it gives the stored bytes. -/
theorem objectsFind_store (m : Objects) (bucket key : String) (body : List UInt8) :
    objectsFind (objectsStore m bucket key body) bucket key = some body := by
  simp [objectsFind, objectsStore, List.lookup]

/-! ## Put: the integrity checks -/

/-- C1: on a backend that accepts the write and confirms the object, `Put`
returns nil if and only if the number of bytes read equals `Size` and their
lowercase hex SHA-256 equals `Oid`. On every backend, a nil result implies
both equalities, a wrong byte count gives `errSizeMismatch`, and a right count
with a wrong hash gives `errHashMismatch`. -/
theorem Put_nil_iff_checks (tk : String → String) (s : AwsContentStore σ) (meta : MetaObject)
    (r : Reader) (st : σ) :
    ((∃ out, (s.client.PutObject (putRequest tk s meta r.data) st).1 = .ok out) →
      (s.client.WaitUntilObjectExists ⟨s.bucket.Name, tk meta.Oid⟩
        (s.client.PutObject (putRequest tk s meta r.data) st).2).1 = none →
      ((s.Put tk meta r st).1 = none ↔
        ((r.data.length : Int) = meta.Size ∧
          hexEncodeToString (sha256Sum r.data) = meta.Oid))) ∧
    ((s.Put tk meta r st).1 = none →
      (r.data.length : Int) = meta.Size ∧
        hexEncodeToString (sha256Sum r.data) = meta.Oid) ∧
    ((r.data.length : Int) ≠ meta.Size →
      (s.Put tk meta r st).1 = some .errSizeMismatch) ∧
    ((r.data.length : Int) = meta.Size →
      hexEncodeToString (sha256Sum r.data) ≠ meta.Oid →
      (s.Put tk meta r st).1 = some .errHashMismatch) := by
  rw [Put_cases]
  refine ⟨?_, ?_, ?_, ?_⟩
  · rintro ⟨out, hout⟩ _
    split_ifs with h1 h2
    · simp [h1]
    · simp [h2]
    · simp_all
  · split_ifs with h1 h2
    · simp
    · simp
    · intro _
      exact ⟨not_not.mp h1, not_not.mp h2⟩
  · intro h1
    simp [h1]
  · intro h1 h2
    simp [h1, h2]

/-- The test `TestAwsContentStorePut`: on the map backend, from the empty map,
the write of "test content" is accepted and confirmed, and `Put` under its
hash and size 12 returns nil. -/
theorem Put_nil_iff_checks_witness :
    (∃ out, (mapS3.PutObject (putRequest transformKey (testStore mapS3) ⟨oid, 12⟩
        (bufferOf "test content").data) []).1 = .ok out) ∧
    (mapS3.WaitUntilObjectExists ⟨"lfs-server-go", transformKey oid⟩
        (mapS3.PutObject (putRequest transformKey (testStore mapS3) ⟨oid, 12⟩
          (bufferOf "test content").data) []).2).1 = none ∧
    ((testStore mapS3).Put transformKey ⟨oid, 12⟩ (bufferOf "test content") []).1 = none :=
  have haccept : ∃ out, (mapS3.PutObject (putRequest transformKey (testStore mapS3) ⟨oid, 12⟩
      (bufferOf "test content").data) []).1 = .ok out := ⟨⟨""⟩, rfl⟩
  have hconfirm : (mapS3.WaitUntilObjectExists ⟨"lfs-server-go", transformKey oid⟩
      (mapS3.PutObject (putRequest transformKey (testStore mapS3) ⟨oid, 12⟩
        (bufferOf "test content").data) []).2).1 = none := by decide!
  ⟨haccept, hconfirm,
   ((Put_nil_iff_checks transformKey (testStore mapS3) ⟨oid, 12⟩ (bufferOf "test content")
      []).1 haccept hconfirm).2 ⟨by decide!, by decide!⟩⟩

/-- C2: whenever the number of bytes read differs from `meta.Size`, `Put`
returns `errSizeMismatch`, whatever the hash of the bytes is. -/
theorem Put_size_mismatch (tk : String → String) (s : AwsContentStore σ) (meta : MetaObject)
    (r : Reader) (st : σ) (hsize : (r.data.length : Int) ≠ meta.Size) :
    (s.Put tk meta r st).1 = some .errSizeMismatch := by
  rw [Put_cases]
  simp [hsize]

/-- The test `TestAwsContentStorePutSizeMismatch`: "test content" under its own
hash with size 14. -/
theorem Put_size_mismatch_witness :
    hexEncodeToString (sha256Sum (bufferOf "test content").data) = oid ∧
    ((testStore mapS3).Put transformKey ⟨oid, 14⟩ (bufferOf "test content") []).1 =
      some .errSizeMismatch :=
  ⟨by decide!,
   Put_size_mismatch transformKey (testStore mapS3) ⟨oid, 14⟩ (bufferOf "test content") []
    (by decide!)⟩

/-- C3: whenever the number of bytes read equals `meta.Size` and their
lowercase hex SHA-256 differs from `meta.Oid`, `Put` returns
`errHashMismatch`. -/
theorem Put_hash_mismatch (tk : String → String) (s : AwsContentStore σ) (meta : MetaObject)
    (r : Reader) (st : σ) (hsize : (r.data.length : Int) = meta.Size)
    (hhash : hexEncodeToString (sha256Sum r.data) ≠ meta.Oid) :
    (s.Put tk meta r st).1 = some .errHashMismatch := by
  rw [Put_cases]
  simp [hsize, hhash]

/-- A run of C3: "test content" with its size 12 under the hash of 64 times
the letter a. -/
theorem Put_hash_mismatch_witness :
    ((testStore mapS3).Put transformKey ⟨String.mk (List.replicate 64 'a'), 12⟩
      (bufferOf "test content") []).1 = some .errHashMismatch :=
  Put_hash_mismatch transformKey (testStore mapS3) ⟨String.mk (List.replicate 64 'a'), 12⟩
    (bufferOf "test content") [] (by decide!) (by decide!)

/-- C4, as stated, fails: "bogus content" has 13 bytes, so with `Size` 12 the
size check, which comes first, answers, and the error is not
`errHashMismatch`. -/
theorem Put_bogus_content_counterexample :
    ((testStore mapS3).Put transformKey ⟨oid, 12⟩ (bufferOf "bogus content") []).1 ≠
      some .errHashMismatch := by
  decide!

/-- C4 (amended): `Put` of "bogus content" (13 bytes) under the hash of
"test content" fails on every backend: with `Size` 12 the error is
`errSizeMismatch`, and with `Size` 13, the length of the content, it is
`errHashMismatch`. -/
theorem Put_bogus_content (tk : String → String) (s : AwsContentStore σ) (st : σ) :
    (s.Put tk ⟨oid, 12⟩ (bufferOf "bogus content") st).1 = some .errSizeMismatch ∧
    (s.Put tk ⟨oid, 13⟩ (bufferOf "bogus content") st).1 = some .errHashMismatch := by
  have hlen : ((bufferOf "bogus content").data.length : Int) = 13 := by decide!
  have hsha : hexEncodeToString (sha256Sum (bufferOf "bogus content").data) ≠ oid := by decide!
  constructor
  · rw [Put_cases, if_pos (by rw [hlen]; decide)]
  · rw [Put_cases, if_neg (by rw [hlen]; decide), if_pos hsha]

/-! ## Put: nothing is written on a mismatch -/

/-- C5: whenever `Put` returns `errSizeMismatch` or `errHashMismatch`, the
backend is in the state it was in before the call, and no request was sent to
it: run over the same client with its requests recorded, `Put` returns the
same error and the record has not grown. -/
theorem Put_mismatch_no_write (tk : String → String) (s : AwsContentStore σ)
    (meta : MetaObject) (r : Reader) (st : σ) (sent : List Call)
    (herr : (s.Put tk meta r st).1 = some .errSizeMismatch ∨
      (s.Put tk meta r st).1 = some .errHashMismatch) :
    (s.Put tk meta r st).2 = st ∧
    AwsContentStore.Put tk { s with client := recording s.client } meta r (st, sent) =
      ((s.Put tk meta r st).1, (st, sent)) := by
  rw [Put_cases] at herr ⊢
  rw [Put_cases]
  split_ifs at herr ⊢ with h1 h2
  · exact ⟨rfl, rfl⟩
  · exact ⟨rfl, rfl⟩
  · exfalso
    cases hp : (s.client.PutObject (putRequest tk s meta r.data) st).1 <;>
      simp [hp] at herr

/-- The size-mismatch test on a map backend that already holds an object:
the error is `errSizeMismatch` and the map is as it was. -/
theorem Put_mismatch_no_write_witness :
    ((testStore mapS3).Put transformKey ⟨oid, 14⟩ (bufferOf "test content")
        [(("lfs-server-go", "k"), [1, 2, 3])]).1 = some .errSizeMismatch ∧
    ((testStore mapS3).Put transformKey ⟨oid, 14⟩ (bufferOf "test content")
        [(("lfs-server-go", "k"), [1, 2, 3])]).2 = [(("lfs-server-go", "k"), [1, 2, 3])] ∧
    AwsContentStore.Put transformKey { testStore mapS3 with client := recording mapS3 }
        ⟨oid, 14⟩ (bufferOf "test content") ([(("lfs-server-go", "k"), [1, 2, 3])], []) =
      (some .errSizeMismatch, ([(("lfs-server-go", "k"), [1, 2, 3])], [])) :=
  have h : ((testStore mapS3).Put transformKey ⟨oid, 14⟩ (bufferOf "test content")
      [(("lfs-server-go", "k"), [1, 2, 3])]).1 = some .errSizeMismatch := by decide!
  ⟨h,
   (Put_mismatch_no_write transformKey (testStore mapS3) ⟨oid, 14⟩ (bufferOf "test content")
      [(("lfs-server-go", "k"), [1, 2, 3])] [] (Or.inl h)).1,
   h ▸ (Put_mismatch_no_write transformKey (testStore mapS3) ⟨oid, 14⟩ (bufferOf "test content")
      [(("lfs-server-go", "k"), [1, 2, 3])] [] (Or.inl h)).2⟩

/-! ## Round trip on the map backend -/

/-- C6: on the map backend, in every state, if `Put(meta, bytes)` returns nil
then a following `Get(meta)` returns a reader over exactly the bytes with a
nil error, and `Exists(meta)` returns true; neither changes the backend. -/
theorem Put_Get_roundtrip (tk : String → String) (s : AwsContentStore Objects)
    (meta : MetaObject) (r : Reader) (m : Objects) (hclient : s.client = mapS3)
    (hput : (s.Put tk meta r m).1 = none) :
    s.Get tk meta (s.Put tk meta r m).2 =
      ((some (bytesNewReader r.data), none), (s.Put tk meta r m).2) ∧
    s.Exists tk meta (s.Put tk meta r m).2 = (true, (s.Put tk meta r m).2) := by
  rw [Put_cases] at hput ⊢
  split_ifs at hput ⊢ with h1 h2
  constructor
  · simp only [AwsContentStore.Get, hclient, mapS3, putRequest, objectsFind_store,
      ioutilReadAll, bytesNewReader]
  · simp only [AwsContentStore.Exists, hclient, mapS3, putRequest, objectsFind_store]

/-- The tests `TestAwsContentStoreGet` and `TestAwsContentStoreExists`:
"test content" under its hash and size 12, from the empty map. -/
theorem Put_Get_roundtrip_witness :
    ((testStore mapS3).Put transformKey ⟨oid, 12⟩ (bufferOf "test content") []).1 = none ∧
    ((testStore mapS3).Get transformKey ⟨oid, 12⟩
        ((testStore mapS3).Put transformKey ⟨oid, 12⟩ (bufferOf "test content") []).2).1 =
      (some (bufferOf "test content"), none) ∧
    ((testStore mapS3).Exists transformKey ⟨oid, 12⟩
        ((testStore mapS3).Put transformKey ⟨oid, 12⟩ (bufferOf "test content") []).2).1 =
      true :=
  have h : ((testStore mapS3).Put transformKey ⟨oid, 12⟩ (bufferOf "test content") []).1 =
      none := by decide!
  ⟨h,
   congrArg Prod.fst (Put_Get_roundtrip transformKey (testStore mapS3) ⟨oid, 12⟩
      (bufferOf "test content") [] rfl h).1,
   congrArg Prod.fst (Put_Get_roundtrip transformKey (testStore mapS3) ⟨oid, 12⟩
      (bufferOf "test content") [] rfl h).2⟩

/-! ## setAcl -/

/-- C7: `setAcl` maps the configured policy name to the `acl` field: each of
the five policy names gives its canned ACL, every other string, the empty one
included, gives `private`; the other fields of the store stay as they are.
It has no error result. -/
theorem setAcl_policy (Config : Configuration) (s : AwsContentStore σ) :
    (Config.Aws.BucketAcl = "private" → (s.setAcl Config).acl = BucketCannedACLPrivate) ∧
    (Config.Aws.BucketAcl = "public-read" →
      (s.setAcl Config).acl = BucketCannedACLPublicRead) ∧
    (Config.Aws.BucketAcl = "public-read-write" →
      (s.setAcl Config).acl = BucketCannedACLPublicReadWrite) ∧
    (Config.Aws.BucketAcl = "authenticated-read" →
      (s.setAcl Config).acl = BucketCannedACLAuthenticatedRead) ∧
    (Config.Aws.BucketAcl = "bucket-owner-full-control" →
      (s.setAcl Config).acl = ObjectCannedACLBucketOwnerFullControl) ∧
    (Config.Aws.BucketAcl ∉ ["private", "public-read", "public-read-write",
        "authenticated-read", "bucket-owner-full-control"] →
      (s.setAcl Config).acl = BucketCannedACLPrivate) ∧
    (Config.Aws.BucketAcl = "" → (s.setAcl Config).acl = BucketCannedACLPrivate) ∧
    (s.setAcl Config).bucket = s.bucket ∧ (s.setAcl Config).authId = s.authId ∧
    (s.setAcl Config).authKey = s.authKey := by
  refine ⟨?_, ?_, ?_, ?_, ?_, ?_, ?_, ?_, ?_, ?_⟩
  · intro h
    simp [AwsContentStore.setAcl, h]
  · intro h
    simp [AwsContentStore.setAcl, h]
  · intro h
    simp [AwsContentStore.setAcl, h]
  · intro h
    simp [AwsContentStore.setAcl, h]
  · intro h
    simp [AwsContentStore.setAcl, h]
  · intro h
    simp only [List.mem_cons, List.mem_singleton, List.not_mem_nil, or_false, not_or] at h
    simp [AwsContentStore.setAcl, h]
  · intro h
    simp [AwsContentStore.setAcl, h]
  · unfold AwsContentStore.setAcl
    split_ifs <;> rfl
  · unfold AwsContentStore.setAcl
    split_ifs <;> rfl
  · unfold AwsContentStore.setAcl
    split_ifs <;> rfl

/-- The test `TestAwsAcls` at "public-read", and the fallback at the empty
name and at a name that is no policy, on a store whose `acl` was set before. -/
theorem setAcl_policy_witness :
    (AwsContentStore.setAcl ⟨{ testConfig.Aws with BucketAcl := "public-read" }⟩
      (testStore mapS3)).acl = "public-read" ∧
    (AwsContentStore.setAcl ⟨{ testConfig.Aws with BucketAcl := "" }⟩
      { testStore mapS3 with acl := "public-read" }).acl = "private" ∧
    (AwsContentStore.setAcl ⟨{ testConfig.Aws with BucketAcl := "Public-Read" }⟩
      { testStore mapS3 with acl := "public-read" }).acl = "private" :=
  ⟨(setAcl_policy ⟨{ testConfig.Aws with BucketAcl := "public-read" }⟩
      (testStore mapS3)).2.1 rfl,
   (setAcl_policy ⟨{ testConfig.Aws with BucketAcl := "" }⟩
      { testStore mapS3 with acl := "public-read" }).2.2.2.2.2.2.1 rfl,
   (setAcl_policy ⟨{ testConfig.Aws with BucketAcl := "Public-Read" }⟩
      { testStore mapS3 with acl := "public-read" }).2.2.2.2.2.1 (by decide)⟩

/-! ## Get and Exists -/

/-- C8: when the backend read fails with any error, `Get` returns a nil
reader with that error and `Exists` returns false; `Exists` returns true
exactly when the backend read returns no error; and on the map backend, in
every state with nothing stored under the derived key, the read reports
not-found, so `Get` fails and `Exists` is false. -/
theorem Get_Exists_read_error (tk : String → String) (s : AwsContentStore σ)
    (meta : MetaObject) (st : σ) :
    (∀ e st1, s.client.GetObject (getRequest tk s meta) st = (.error e, st1) →
      s.Get tk meta st = ((none, some (.ext e)), st1) ∧
      s.Exists tk meta st = (false, st1)) ∧
    ((s.Exists tk meta st).1 = true ↔
      ∃ out, (s.client.GetObject (getRequest tk s meta) st).1 = .ok out) ∧
    (∀ (sm : AwsContentStore Objects) (m : Objects), sm.client = mapS3 →
      objectsFind m sm.bucket.Name (tk meta.Oid) = none →
      sm.Get tk meta m = ((none, some (.ext noSuchKey)), m) ∧
      sm.Exists tk meta m = (false, m)) := by
  refine ⟨?_, ?_, ?_⟩
  · intro e st1 h
    simp only [getRequest] at h
    simp [AwsContentStore.Get, AwsContentStore.Exists, h]
  · simp only [AwsContentStore.Exists, getRequest]
    rcases hg : s.client.GetObject ⟨s.bucket.Name, tk meta.Oid⟩ st with ⟨res, st1⟩
    cases res with
    | error e => by_cases hc : stringsContains e.message "404" = true <;> simp [hc]
    | ok out => simp
  · intro sm m hclient hfind
    simp [AwsContentStore.Get, AwsContentStore.Exists, hclient, mapS3, hfind]

/-- The test `TestAwsContentStoreGetNonExisting`: the hash of 64 times the
letter a on the empty map. -/
theorem Get_Exists_read_error_witness :
    (testStore mapS3).Get transformKey ⟨String.mk (List.replicate 64 'a'), 0⟩ [] =
      ((none, some (.ext noSuchKey)), []) ∧
    (testStore mapS3).Exists transformKey ⟨String.mk (List.replicate 64 'a'), 0⟩ [] =
      (false, []) :=
  (Get_Exists_read_error transformKey (testStore mapS3)
    ⟨String.mk (List.replicate 64 'a'), 0⟩ []).2.2 (testStore mapS3) [] rfl rfl

/-! ## Errors that are dropped -/

/-- C9 at a failing input: the backend accepts the write of "test content"
and the waiter then gives up with an error; `Put` returns nil. -/
theorem Put_nil_after_failed_wait :
    ((withWaitError resourceNotReady mapS3).WaitUntilObjectExists
        ⟨"lfs-server-go", transformKey oid⟩
        ((withWaitError resourceNotReady mapS3).PutObject
          (putRequest transformKey (testStore (withWaitError resourceNotReady mapS3))
            ⟨oid, 12⟩ (bufferOf "test content").data) []).2).1 = some resourceNotReady ∧
    ((testStore (withWaitError resourceNotReady mapS3)).Put transformKey ⟨oid, 12⟩
        (bufferOf "test content") []).1 = none := by
  constructor
  · rfl
  · decide!

/-- C10 at a failing input: "test content" is stored, the `GetObject` request
succeeds, and the response body breaks after four bytes; `Get` returns a
reader over those four bytes and a nil error. -/
theorem Get_nil_after_failed_read :
    (((withBodyError 4 ⟨"unexpected EOF"⟩ mapS3).GetObject
        ⟨"lfs-server-go", transformKey oid⟩
        [(("lfs-server-go", transformKey oid), bytesOfString "test content")]).1.toOption.map
      (fun out => ioutilReadAll out.Body)) =
      some (bytesOfString "test", some ⟨"unexpected EOF"⟩) ∧
    ((testStore (withBodyError 4 ⟨"unexpected EOF"⟩ mapS3)).Get transformKey ⟨oid, 12⟩
        [(("lfs-server-go", transformKey oid), bytesOfString "test content")]).1 =
      (some (bufferOf "test"), none) := by
  constructor
  · decide!
  · decide!

end LfsServer
